import Mathlib

/-!
Verification of the Zeni voice-assistant server (`src/server`).

The Python sources are shallowly embedded: each relevant method becomes a
pure Lean function over an explicit state record, returning the updated
state together with the list of messages sent to the client over the
websocket.  External engines (Google ASR, the LLM, the TTS service) are
I/O boundaries of the program and enter the model as explicit input data
(lists of results / tokens) or oracle function parameters.  Machine floats
in the sources (`time.perf_counter`, similarity ratios, RMS energy) are
modelled with exact arithmetic over `ℚ`/`ℤ`; the quantities involved are
far from any rounding boundary of the doubles used at runtime.
-/

namespace Zeni

set_option maxRecDepth 16384

/-- Embeds `SessionState` from `core/protocol.py` (`class SessionState(str, Enum)`). -/
inductive SessionState where
  | idle
  | listening
  | transcribing
  | generating
  | speaking
  | interrupted
  | error
  | closed
deriving DecidableEq, Repr

/-- Embeds `Language` from `core/protocol.py`. -/
inductive Lang where
  | english
  | hindi
deriving DecidableEq, Repr

/-- A conversation turn (`ConversationTurn` in `core/protocol.py`). -/
structure Turn where
  role : String
  content : String
deriving DecidableEq, Repr

/-- Outbound websocket messages (`core/protocol.py` message classes),
reduced to the payload fields the claims are about. -/
inductive Msg where
  | stateChange (state : SessionState) (previousState : Option SessionState)
  | playbackStop
  | sessionAck (sessionId : String)
  | transcriptPart (text : String)
  | transcriptFinal (text : String)
  | llmToken (token : List Char) (sequence : Nat)
  | llmComplete (fullText : List Char)
  | audioResponse (sequence : Nat)
  | actionMsg (kind : String)
  | errorMsg (code : Nat)
deriving DecidableEq, Repr

/-- The mutable state of `Session` (`core/session.py`, lines 27-72)
restricted to the fields the claims mention.  `interruptEvent` models the
`asyncio.Event` used as a level-triggered flag. -/
structure Session where
  state : SessionState := .idle
  previousState : Option SessionState := none
  interruptEvent : Bool := false
  audioBuffer : List Nat := []
  turns : List Turn := []
  audioSequence : Nat := 0
deriving DecidableEq, Repr

/-- Embeds `Session.transition_state` (`core/session.py`, lines 85-103): a
same-state call returns immediately; otherwise the state is updated and a
`StateChangeMessage` is sent carrying the new state and the old state. -/
def transitionState (s : Session) (newState : SessionState) : Session × List Msg :=
  if newState = s.state then (s, [])
  else ({ s with previousState := some s.state, state := newState },
        [Msg.stateChange newState (some s.state)])

/-- Embeds `Session.handle_interrupt` (`core/session.py`, lines 105-139): set the
interrupt flag, cancel active tasks (runtime task handles are not part of
the embedded state), clear the audio buffer, send `PlaybackStopMessage`,
transition to LISTENING, then clear the interrupt flag. -/
def handleInterrupt (s : Session) : Session × List Msg :=
  let s1 : Session := { s with interruptEvent := true }
  let s2 : Session := { s1 with audioBuffer := [] }
  let res := transitionState s2 SessionState.listening
  ({ res.1 with interruptEvent := false }, Msg.playbackStop :: res.2)

/-- The `finally` clause of `StreamingPipeline.run_full_pipeline`
(`core/pipeline.py`, lines 546-549): reset to IDLE only when the session
is neither interrupted nor CLOSED. -/
def pipelineFinalReset (s : Session) : Session × List Msg :=
  if s.interruptEvent = false ∧ s.state ≠ SessionState.closed then
    transitionState s SessionState.idle
  else (s, [])

/-- A concrete session that has been moved to CLOSED
(as `SessionManager.remove_session` leaves it). -/
def closedSession : Session :=
  { state := SessionState.closed, previousState := some SessionState.speaking }

/-- C1 counterexample: `transition_state` itself does not reject
transitions out of CLOSED.  Called on a CLOSED session with target
LISTENING, the state becomes LISTENING and a state-change notification is
emitted, contradicting the claim that the state stays CLOSED and no
notification is sent. -/
theorem transitionState_escapes_closed :
    (transitionState closedSession SessionState.listening).1.state
        = SessionState.listening ∧
    (transitionState closedSession SessionState.listening).2
        = [Msg.stateChange SessionState.listening (some SessionState.closed)] := by
  constructor <;> rfl

/-- C1 (amended): the transition operation only short-circuits same-state
calls, so a CLOSED→CLOSED call is a silent no-op; absorption on the
pipeline path is enforced by the caller: the pipeline's final reset leaves
a CLOSED session untouched and emits nothing. -/
theorem closed_absorbing_on_pipeline_path (s : Session)
    (h : s.state = SessionState.closed) :
    transitionState s SessionState.closed = (s, []) ∧
    pipelineFinalReset s = (s, []) := by
  constructor
  · simp [transitionState, h]
  · simp [pipelineFinalReset, h]

/-- Witness for `closed_absorbing_on_pipeline_path` at a concrete CLOSED session. -/
theorem closed_absorbing_on_pipeline_path_witness :
    closedSession.state = SessionState.closed ∧
    transitionState closedSession SessionState.closed = (closedSession, []) ∧
    pipelineFinalReset closedSession = (closedSession, []) := by
  refine ⟨rfl, ?_, ?_⟩
  · exact (closed_absorbing_on_pipeline_path closedSession rfl).1
  · exact (closed_absorbing_on_pipeline_path closedSession rfl).2

/-- The registry of `SessionManager` (`core/session.py`, lines 185-194):
`self.sessions` is a `Dict[str, Session]`, modelled as an association list
with `dict.pop` rendered as filtering the key out; `self.max_sessions`
comes from `config.performance.max_sessions`. -/
structure SessionManager where
  sessions : List (String × Session) := []
  maxSessions : Nat := 20
deriving DecidableEq, Repr

/-- Embeds `SessionManager.get_session` (`core/session.py`, lines 248-250). -/
def lookupSession (m : SessionManager) (sid : String) : Option Session :=
  (m.sessions.find? (fun p => p.1 = sid)).map Prod.snd

/-- Embeds `SessionManager.create_session` (`core/session.py`, lines 216-246):
raise when the registry already holds `max_sessions` entries, otherwise
register a fresh session and send the acknowledgment.  The raise is
modelled as returning the unchanged manager with an `Except.error`. -/
def createSession (m : SessionManager) (sid : String) :
    SessionManager × List Msg × Except String String :=
  if m.maxSessions ≤ m.sessions.length then
    (m, [], Except.error ("Maximum sessions (" ++ toString m.maxSessions ++ ") reached"))
  else
    ({ m with sessions := m.sessions ++ [(sid, ({} : Session))] },
     [Msg.sessionAck sid], Except.ok sid)

/-- Embeds `SessionManager.remove_session` (`core/session.py`, lines 252-264):
pop the id; when present, run `handle_interrupt` on the evicted session
and mark it CLOSED (the evicted session leaves the registry, so only the
registry and the emitted messages remain observable). -/
def removeSession (m : SessionManager) (sid : String) : SessionManager × List Msg :=
  match m.sessions.find? (fun p => p.1 = sid) with
  | none => (m, [])
  | some p =>
      let m' : SessionManager :=
        { m with sessions := m.sessions.filter (fun q => q.1 ≠ sid) }
      (m', (handleInterrupt p.2).2)

/-- A one-session registry used as concrete witness data. -/
def mgrA : SessionManager := { sessions := [("a", {})], maxSessions := 20 }

/-- A registry at capacity used as concrete witness data. -/
def mgrFull : SessionManager := { sessions := [("a", {})], maxSessions := 1 }

/-- C6: creating a session when the registry is at (or beyond) the
configured maximum raises the admission fault and leaves the registry
untouched: the manager is returned unchanged, no acknowledgment is sent,
and the result is the `RuntimeError` text. -/
theorem createSession_at_capacity (m : SessionManager) (sid : String)
    (h : m.maxSessions ≤ m.sessions.length) :
    createSession m sid =
      (m, [], Except.error ("Maximum sessions (" ++ toString m.maxSessions ++ ") reached")) := by
  simp [createSession, h]

/-- Witness for `createSession_at_capacity` on a full one-slot registry. -/
theorem createSession_at_capacity_witness :
    mgrFull.maxSessions ≤ mgrFull.sessions.length ∧
    (createSession mgrFull "b").1 = mgrFull := by
  refine ⟨by decide, ?_⟩
  rw [createSession_at_capacity mgrFull "b" (by decide)]

/-- C7: session removal is idempotent — removing the same id twice leaves
the registry exactly as one removal does (and the second call emits
nothing), and removing an id absent from the registry is a silent no-op. -/
theorem removeSession_idempotent (m : SessionManager) (sid : String) :
    removeSession (removeSession m sid).1 sid = ((removeSession m sid).1, []) ∧
    (lookupSession m sid = none → removeSession m sid = (m, [])) := by
  constructor
  · cases hf : m.sessions.find? (fun p => p.1 = sid) with
    | none => simp [removeSession, hf]
    | some p =>
        have h2 : (m.sessions.filter (fun q => decide (q.1 ≠ sid))).find?
            (fun p => decide (p.1 = sid)) = none := by
          apply List.find?_eq_none.mpr
          intro x hx
          have hx2 := (List.mem_filter.mp hx).2
          simpa using of_decide_eq_true hx2
        have h3 : m.sessions.find? (fun _ => (false : Bool)) = none :=
          List.find?_eq_none.mpr (fun x _ => by simp)
        simp [removeSession, hf, h2, h3]
  · intro h
    have hf : m.sessions.find? (fun p => p.1 = sid) = none := by
      unfold lookupSession at h
      exact Option.map_eq_none.mp h
    simp [removeSession, hf]

/-- Witness for `removeSession_idempotent`: double removal of a present id
on a concrete registry, and removal of an absent id. -/
theorem removeSession_idempotent_witness :
    removeSession (removeSession mgrA "a").1 "a" = ((removeSession mgrA "a").1, []) ∧
    removeSession mgrA "b" = (mgrA, []) := by
  refine ⟨(removeSession_idempotent mgrA "a").1, ?_⟩
  exact (removeSession_idempotent mgrA "b").2 (by decide)

/-- C2: after `handle_interrupt` completes, from any starting state, the
session is LISTENING, its audio buffer is empty, a playback-stop message
was sent to the client, and the interrupt flag is cleared. -/
theorem handleInterrupt_postcondition (s : Session) :
    (handleInterrupt s).1.state = SessionState.listening ∧
    (handleInterrupt s).1.audioBuffer = [] ∧
    Msg.playbackStop ∈ (handleInterrupt s).2 ∧
    (handleInterrupt s).1.interruptEvent = false := by
  unfold handleInterrupt transitionState
  by_cases h : SessionState.listening = s.state <;> simp [h]

/-- Python `str` whitespace (the ASCII characters stripped/split by
`str.strip()` and `str.split()`; the texts here are ASCII). -/
def isPyWS (c : Char) : Bool :=
  c = ' ' ∨ c = '\t' ∨ c = '\n' ∨ c = '\r' ∨ c = Char.ofNat 11 ∨ c = Char.ofNat 12

/-- Python `str.split()` with no separator: split on whitespace runs, dropping
empty pieces.  `acc` holds the current word, reversed. -/
def splitWSAux : List Char → List Char → List (List Char)
  | [], acc => if acc = [] then [] else [acc.reverse]
  | c :: rest, acc =>
      if isPyWS c then
        if acc = [] then splitWSAux rest []
        else acc.reverse :: splitWSAux rest []
      else splitWSAux rest (c :: acc)

/-- Python `text.lower().split()` as a duplicate-free word list (Python builds a
`set`; the list is deduplicated so its length is the set's size). -/
def pyWordSet (t : String) : List (List Char) :=
  (splitWSAux (t.toList.map Char.toLower) []).dedup

/-- Computes `len(spec_words & final_words)` in
`StreamingPipeline.should_use_speculative_result`. -/
def overlapCount (s f : String) : Nat :=
  ((pyWordSet s).filter (fun w => w ∈ pyWordSet f)).length

/-- Embeds `StreamingPipeline.should_use_speculative_result`
(`core/pipeline.py`, lines 190-213): no stored speculative text (or an
empty one) is invalid; empty word sets are invalid; otherwise valid iff
`overlap / max(len(spec_words), len(final_words)) >= 0.8`, computed here
over `ℚ`. -/
def shouldUseSpeculativeResult (specText : Option String) (finalText : String) : Bool :=
  match specText with
  | none => false
  | some s =>
      if s = "" then false
      else
        let sw := pyWordSet s
        let fw := pyWordSet finalText
        if sw = [] ∨ fw = [] then false
        else decide ((4 : ℚ) / 5 ≤
          (overlapCount s finalText : ℚ) / (max sw.length fw.length : ℚ))

/-- Modelled from the spec's words, for comparison with the code: the
token-set Jaccard similarity — intersection of the lower-cased word sets
over their union. -/
def jaccardSimilarity (a b : String) : ℚ :=
  let aw := pyWordSet a
  let bw := pyWordSet b
  let inter := (aw.filter (fun w => w ∈ bw)).length
  let union := (aw ++ bw.filter (fun w => ¬ w ∈ aw)).length
  (inter : ℚ) / (union : ℚ)

/-- The rational acceptance test of the validity check is equivalent to a
cross-multiplied natural-number criterion. -/
lemma shouldUse_some_iff (s f : String) :
    shouldUseSpeculativeResult (some s) f = true ↔
      pyWordSet s ≠ [] ∧ pyWordSet f ≠ [] ∧
      4 * max (pyWordSet s).length (pyWordSet f).length ≤ 5 * overlapCount s f := by
  unfold shouldUseSpeculativeResult
  by_cases hs : s = ""
  · subst hs
    have h0 : pyWordSet "" = [] := rfl
    simp [h0]
  · simp only [if_neg hs]
    by_cases hempty : pyWordSet s = [] ∨ pyWordSet f = []
    · simp only [if_pos hempty]
      constructor
      · intro h; exact absurd h (by simp)
      · rintro ⟨h1, h2, -⟩
        rcases hempty with h | h
        · exact absurd h h1
        · exact absurd h h2
    · simp only [if_neg hempty]
      push_neg at hempty
      obtain ⟨h1, h2⟩ := hempty
      have hM : 0 < max (pyWordSet s).length (pyWordSet f).length := by
        have : 0 < (pyWordSet s).length := List.length_pos.mpr h1
        omega
      have hMQ : (0 : ℚ) < (max (pyWordSet s).length (pyWordSet f).length : ℚ) := by
        exact_mod_cast hM
      rw [decide_eq_true_iff, div_le_div_iff₀ (by norm_num) hMQ]
      constructor
      · intro h
        refine ⟨h1, h2, ?_⟩
        have : (4 * max (pyWordSet s).length (pyWordSet f).length : ℚ) ≤
            (5 * overlapCount s f : ℚ) := by push_cast; linarith
        exact_mod_cast this
      · rintro ⟨-, -, h⟩
        have : (4 * max (pyWordSet s).length (pyWordSet f).length : ℚ) ≤
            (5 * overlapCount s f : ℚ) := by exact_mod_cast h
        push_cast at this ⊢
        linarith

/-- C3 counterexample: the code's validity check divides the overlap by
the larger word-set size, not by the union size, so it is not the Jaccard
criterion: on speculative text "a b c d e" against final "a b c d f" the
check accepts (4/5 ≥ 0.8) while the Jaccard similarity is 4/6 < 0.8. -/
theorem shouldUseSpeculative_not_jaccard :
    shouldUseSpeculativeResult (some "a b c d e") "a b c d f" = true ∧
    jaccardSimilarity "a b c d e" "a b c d f" < 4 / 5 := by
  constructor
  · exact (shouldUse_some_iff _ _).mpr (by decide)
  · have h : jaccardSimilarity "a b c d e" "a b c d f" = ((4 : ℕ) : ℚ) / ((6 : ℕ) : ℚ) := rfl
    rw [h]
    norm_num

/-- C3 (amended): the check accepts exactly when a speculative text is
stored and both lower-cased word sets are nonempty and the overlap divided
by the larger of the two set sizes is at least 0.80; the two cited
examples behave as claimed (accepted against "show me the library",
rejected against "what time is lunch"). -/
theorem shouldUseSpeculative_amended (s f : String) :
    shouldUseSpeculativeResult none f = false ∧
    (shouldUseSpeculativeResult (some s) f = true ↔
      pyWordSet s ≠ [] ∧ pyWordSet f ≠ [] ∧
      4 * max (pyWordSet s).length (pyWordSet f).length ≤ 5 * overlapCount s f) ∧
    shouldUseSpeculativeResult (some "show me the library please") "show me the library" = true ∧
    shouldUseSpeculativeResult (some "show me the library please") "what time is lunch" = false := by
  refine ⟨rfl, shouldUse_some_iff s f, (shouldUse_some_iff _ _).mpr (by decide), ?_⟩
  rw [← Bool.not_eq_true, shouldUse_some_iff]
  decide

/-- Witness for `shouldUseSpeculative_amended`: its `iff` conjunct at the
cited accepted example, hypotheses of the right-to-left direction
discharged concretely. -/
theorem shouldUseSpeculative_amended_witness :
    shouldUseSpeculativeResult (some "show me the library please") "show me the library" = true := by
  exact ((shouldUseSpeculative_amended "show me the library please"
    "show me the library").2.1).mpr (by decide)

/-- Embeds `ASRResult` (`engines/asr.py`) restricted to the fields `finalize`
inspects. -/
structure ASRResultM where
  text : String
  is_final : Bool
deriving DecidableEq, Repr

/-- Python `str.strip()` on a character list. -/
def pyStrip (cs : List Char) : List Char :=
  ((cs.dropWhile isPyWS).reverse.dropWhile isPyWS).reverse

/-- Truthiness of `result.text.strip()`. -/
def stripNonempty (t : String) : Bool :=
  pyStrip t.toList ≠ []

/-- The polling loop of `GoogleASREngine.finalize`
(`engines/google_asr.py`, lines 277-304), over the sequence of results the
queue yields within the 0.5 s window; `best` is `best_result`.  A
nonempty-text result becomes `best`; a nonempty final returns immediately
— `None` if it duplicates `_last_final_text`, itself otherwise (updating
`_last_final_text`); when the window ends, any `best` is promoted to final
and returned. -/
def finalizeGo (lastFinal : String) (best : Option ASRResultM) :
    List ASRResultM → Option ASRResultM × String
  | [] =>
      match best with
      | some b => (some { b with is_final := true }, lastFinal)
      | none => (none, lastFinal)
  | r :: rest =>
      if stripNonempty r.text then
        if r.is_final then
          if r.text = lastFinal then (none, lastFinal)
          else (some r, r.text)
        else finalizeGo lastFinal (some r) rest
      else finalizeGo lastFinal best rest

/-- Embeds `GoogleASREngine.finalize` (`engines/google_asr.py`, lines 267-304),
given the preceding final transcript `lastFinal` and the queued results. -/
def finalize (lastFinal : String) (queue : List ASRResultM) : Option ASRResultM × String :=
  finalizeGo lastFinal none queue

/-- The running `best_result` after the window's results are consumed:
the last result with nonempty text, mirroring the loop's update. -/
def bestAfterLoop (best : Option ASRResultM) (queue : List ASRResultM) : Option ASRResultM :=
  queue.foldl (fun b r => if stripNonempty r.text then some r else b) best

/-- An engine final duplicating the preceding final text makes the loop
return `None`, whatever `best_result` holds. -/
lemma finalizeGo_first_final_dup (lastFinal : String) (q : List ASRResultM) :
    ∀ (best : Option ASRResultM) (fr : ASRResultM),
      q.find? (fun r => stripNonempty r.text && r.is_final) = some fr →
      fr.text = lastFinal →
      finalizeGo lastFinal best q = (none, lastFinal) := by
  induction q with
  | nil => intro best fr h _; simp at h
  | cons r rest ih =>
      intro best fr h hdup
      by_cases hr : stripNonempty r.text = true
      · by_cases hf : r.is_final = true
        · have hp : (stripNonempty r.text && r.is_final) = true := by simp [hr, hf]
          have hfind : (r :: rest).find? (fun x => stripNonempty x.text && x.is_final)
              = some r := List.find?_cons_of_pos rest hp
          rw [hfind] at h
          obtain rfl : r = fr := by simpa using h
          rw [finalizeGo, if_pos hr, if_pos hf, if_pos hdup]
        · have hfind : (r :: rest).find? (fun x => stripNonempty x.text && x.is_final)
              = rest.find? (fun x => stripNonempty x.text && x.is_final) :=
            List.find?_cons_of_neg rest (by simp [hf])
          rw [hfind] at h
          rw [finalizeGo, if_pos hr, if_neg (by simp [hf])]
          exact ih (some r) fr h hdup
      · have hfind : (r :: rest).find? (fun x => stripNonempty x.text && x.is_final)
            = rest.find? (fun x => stripNonempty x.text && x.is_final) := by
          refine List.find?_cons_of_neg rest ?_
          rw [Bool.and_eq_true]
          rintro ⟨h1, -⟩
          exact hr h1
        rw [hfind] at h
        rw [finalizeGo, if_neg hr]
        exact ih best fr h hdup

/-- With no nonempty-text final in the window, the loop ends by promoting
the running best result. -/
lemma finalizeGo_no_final (lastFinal : String) (q : List ASRResultM) :
    ∀ best : Option ASRResultM,
      (∀ r ∈ q, stripNonempty r.text = true → r.is_final = false) →
      finalizeGo lastFinal best q =
        match bestAfterLoop best q with
        | some b => (some { b with is_final := true }, lastFinal)
        | none => (none, lastFinal) := by
  induction q with
  | nil => intro best _; cases best <;> rfl
  | cons r rest ih =>
      intro best hnf
      have hrest : ∀ x ∈ rest, stripNonempty x.text = true → x.is_final = false :=
        fun x hx => hnf x (List.mem_cons_of_mem r hx)
      by_cases hr : stripNonempty r.text = true
      · have hf : r.is_final = false := hnf r (List.mem_cons_self r rest) hr
        rw [finalizeGo, if_pos hr, if_neg (by simp [hf]), ih (some r) hrest]
        have hb : bestAfterLoop best (r :: rest) = bestAfterLoop (some r) rest := by
          simp [bestAfterLoop, List.foldl_cons, hr]
        rw [hb]
      · rw [finalizeGo, if_neg hr, ih best hrest]
        have hb : bestAfterLoop best (r :: rest) = bestAfterLoop best rest := by
          simp [bestAfterLoop, List.foldl_cons, hr]
        rw [hb]

/-- C5 counterexample: with preceding final text "hello", a window holding
only the partial "hello" makes `finalize` promote it and return it — the
promoted duplicate of the immediately preceding final text is returned,
not suppressed. -/
theorem finalize_returns_promoted_duplicate :
    finalize "hello" [{ text := "hello", is_final := false }] =
      (some { text := "hello", is_final := true }, "hello") ∧
    (finalize "hello" [{ text := "hello", is_final := false }]).1 ≠ none := by
  constructor <;> decide

/-- C5 (amended): duplicate suppression applies only to engine-produced
final results — the first nonempty-text final equal to the preceding
final text makes `finalize` return no result; but when the window holds no
nonempty-text final, the last nonempty-text result is promoted to final
and returned even when its text equals the preceding final text. -/
theorem finalize_dedup_amended (lastFinal : String) (queue : List ASRResultM) :
    (∀ fr : ASRResultM,
      queue.find? (fun r => stripNonempty r.text && r.is_final) = some fr →
      fr.text = lastFinal →
      finalize lastFinal queue = (none, lastFinal)) ∧
    ((∀ r ∈ queue, stripNonempty r.text = true → r.is_final = false) →
      finalize lastFinal queue =
        match bestAfterLoop none queue with
        | some b => (some { b with is_final := true }, lastFinal)
        | none => (none, lastFinal)) := by
  constructor
  · intro fr h hdup
    exact finalizeGo_first_final_dup lastFinal queue none fr h hdup
  · intro hnf
    exact finalizeGo_no_final lastFinal queue none hnf

/-- Witness for `finalize_dedup_amended`: both conjuncts at concrete
windows — a duplicate engine final is suppressed, and a lone partial equal
to the preceding final is promoted and returned. -/
theorem finalize_dedup_amended_witness :
    finalize "hi" [{ text := "hi", is_final := true }] = (none, "hi") ∧
    finalize "hi" [{ text := "hi", is_final := false }] =
      (some { text := "hi", is_final := true }, "hi") := by
  constructor
  · exact (finalize_dedup_amended "hi" [{ text := "hi", is_final := true }]).1
      { text := "hi", is_final := true } (by decide) rfl
  · have h := (finalize_dedup_amended "hi" [{ text := "hi", is_final := false }]).2
      (by decide)
    rw [h]
    decide

/-- A partial transcription result together with its arrival time
(`time.perf_counter()` seconds, modelled exactly over `ℚ`). -/
structure PFrame where
  text : String
  time : ℚ
deriving DecidableEq, Repr

/-- The partial-result branch of `StreamingPipeline.process_audio_frame`
(`core/pipeline.py`, lines 107-128) iterated over a sequence of partial
results: forward exactly when the text differs from the last forwarded
text, is nonempty after stripping, and at least 0.02 s elapsed since the
last forwarded partial; forwarding updates both trackers. -/
def forwardPartials (lastText : String) (lastTime : ℚ) : List PFrame → List PFrame
  | [] => []
  | f :: rest =>
      if f.text ≠ lastText ∧ stripNonempty f.text = true ∧ 1 / 50 ≤ f.time - lastTime then
        f :: forwardPartials f.text f.time rest
      else forwardPartials lastText lastTime rest

/-- The forwarded partial sequence from the pipeline's initial tracking
state (`_last_partial_text = ""`, `_last_partial_time = 0.0`). -/
def forwardedPartialSeq (frames : List PFrame) : List PFrame :=
  forwardPartials "" 0 frames

/-- Forwarded partials form a subsequence of the incoming frames: dropped,
never reordered. -/
lemma forwardPartials_sublist :
    ∀ (frames : List PFrame) (lt : String) (lti : ℚ),
      (forwardPartials lt lti frames).Sublist frames := by
  intro frames
  induction frames with
  | nil => intro lt lti; simp [forwardPartials]
  | cons f rest ih =>
      intro lt lti
      rw [forwardPartials]
      split
      · exact List.Sublist.cons₂ f (ih f.text f.time)
      · exact List.Sublist.cons f (ih lt lti)

/-- Consecutive forwarded partials differ in text and are at least 0.02 s
apart; the first is checked against the incoming tracking state. -/
lemma forwardPartials_chain :
    ∀ (frames : List PFrame) (lt : String) (lti : ℚ),
      List.Chain' (fun a b => b.text ≠ a.text ∧ (1 : ℚ) / 50 ≤ b.time - a.time)
        (forwardPartials lt lti frames) ∧
      (∀ x, (forwardPartials lt lti frames).head? = some x →
        x.text ≠ lt ∧ (1 : ℚ) / 50 ≤ x.time - lti) := by
  intro frames
  induction frames with
  | nil =>
      intro lt lti
      refine ⟨by simp [forwardPartials], ?_⟩
      intro x hx
      simp [forwardPartials] at hx
  | cons f rest ih =>
      intro lt lti
      rw [forwardPartials]
      split_ifs with h
      · obtain ⟨hne, -, htime⟩ := h
        constructor
        · rw [List.chain'_cons']
          refine ⟨?_, (ih f.text f.time).1⟩
          intro y hy
          exact (ih f.text f.time).2 y hy
        · intro x hx
          simp only [List.head?_cons, Option.some.injEq] at hx
          subst hx
          exact ⟨hne, htime⟩
      · exact ih lt lti

/-- C8: over any incoming sequence of partial results, the forwarded
transcript-partial messages never contain two consecutive entries with the
same text or less than 20 ms apart, and they form a subsequence of the
input — dropped, never reordered. -/
theorem partial_forwarding_throttle (frames : List PFrame) :
    List.Chain' (fun a b => b.text ≠ a.text ∧ (1 : ℚ) / 50 ≤ b.time - a.time)
      (forwardedPartialSeq frames) ∧
    (forwardedPartialSeq frames).Sublist frames :=
  ⟨(forwardPartials_chain frames "" 0).1, forwardPartials_sublist frames "" 0⟩

/-- The state of `StreamingPipeline` tracked across audio frames
(`core/pipeline.py`, lines 70-73). -/
structure PipelineState where
  lastPartialText : String := ""
  lastPartialTime : ℚ := 0
  pendingFinalText : Option String := none
deriving DecidableEq, Repr

/-- An ASR engine result as consumed by `process_audio_frame`
(`is_partial` is the negation of `is_final` in every result the engine
builds, so one flag suffices). -/
structure AsrRes where
  text : String
  is_final : Bool
deriving DecidableEq, Repr

/-- Embeds `StreamingPipeline.process_audio_frame` (`core/pipeline.py`, lines
84-147) for one frame: skip everything when interrupted; on a partial
result apply the dedup/throttle filter; on a final result send the final
transcript, store the pending final and reset the partial tracker; the
returned flag reports a final transcript. -/
def processAudioFrame (s : Session) (p : PipelineState) (now : ℚ)
    (result : Option AsrRes) : PipelineState × List Msg × Bool :=
  if s.interruptEvent then (p, [], false)
  else
    match result with
    | none => (p, [], false)
    | some r =>
        let step :=
          if ¬ r.is_final then
            if r.text ≠ p.lastPartialText ∧ stripNonempty r.text = true ∧
                1 / 50 ≤ now - p.lastPartialTime then
              ({ p with lastPartialText := r.text, lastPartialTime := now },
               [Msg.transcriptPart r.text])
            else (p, [])
          else (p, [])
        if r.is_final then
          ({ step.1 with pendingFinalText := some r.text, lastPartialText := "" },
           step.2 ++ [Msg.transcriptFinal r.text], true)
        else (step.1, step.2, false)

/-- Exact-arithmetic form of the barge-in energy test in
`VoiceSessionHandler._handle_binary_audio` / `_handle_audio_frame`
(`server.py`): `sqrt(mean(x²)) > thr` over the signed 16-bit samples,
cross-multiplied to avoid the square root (`mean` of an empty array is
NaN, and `NaN > thr` is false, matching `0 < 0`). -/
def rmsExceedsThreshold (samples : List ℤ) (thr : ℕ) : Bool :=
  decide ((thr : ℤ) ^ 2 * samples.length < (samples.map (fun x => x * x)).sum)

/-- Result of one call to the binary-audio handler. -/
structure BinAudioRes where
  session : Session
  pstate : PipelineState
  msgs : List Msg
  forwardedToASR : Bool
deriving DecidableEq, Repr

/-- Embeds `VoiceSessionHandler._handle_binary_audio` (`server.py`, lines
390-424; `_handle_audio_frame`, lines 654-709, gates identically): frames
outside IDLE/LISTENING are never forwarded to the ASR engine; in
GENERATING/SPEAKING an RMS energy above 300 triggers interrupt handling,
anything else is dropped silently; in IDLE/LISTENING the frame goes to
`process_audio_frame` (IDLE first transitions to LISTENING). -/
def handleBinaryAudio (s : Session) (p : PipelineState) (samples : List ℤ)
    (now : ℚ) (asr : Option AsrRes) : BinAudioRes :=
  if s.state ≠ SessionState.idle ∧ s.state ≠ SessionState.listening then
    if (s.state = SessionState.generating ∨ s.state = SessionState.speaking) ∧
        rmsExceedsThreshold samples 300 = true then
      let r := handleInterrupt s
      { session := r.1, pstate := p, msgs := r.2, forwardedToASR := false }
    else
      { session := s, pstate := p, msgs := [], forwardedToASR := false }
  else
    let t := if s.state = SessionState.idle
      then transitionState s SessionState.listening else (s, [])
    let q := processAudioFrame t.1 p now asr
    { session := t.1, pstate := q.1, msgs := t.2 ++ q.2.1,
      forwardedToASR := !t.1.interruptEvent }

/-- C9: a chunk arriving in GENERATING or SPEAKING is never forwarded to
the transcription engine; if its RMS energy exceeds 300 it triggers
interrupt handling (the session and messages are exactly those of
`handle_interrupt`), otherwise it is silently dropped: session and
pipeline state unchanged, no message sent. -/
theorem audio_gate_generating_speaking (s : Session) (p : PipelineState)
    (samples : List ℤ) (now : ℚ) (asr : Option AsrRes)
    (h : s.state = SessionState.generating ∨ s.state = SessionState.speaking) :
    (handleBinaryAudio s p samples now asr).forwardedToASR = false ∧
    (rmsExceedsThreshold samples 300 = true →
      (handleBinaryAudio s p samples now asr).session = (handleInterrupt s).1 ∧
      (handleBinaryAudio s p samples now asr).msgs = (handleInterrupt s).2) ∧
    (rmsExceedsThreshold samples 300 = false →
      (handleBinaryAudio s p samples now asr).session = s ∧
      (handleBinaryAudio s p samples now asr).msgs = [] ∧
      (handleBinaryAudio s p samples now asr).pstate = p) := by
  have hgate : s.state ≠ SessionState.idle ∧ s.state ≠ SessionState.listening := by
    rcases h with h | h <;> rw [h] <;> exact ⟨by simp, by simp⟩
  unfold handleBinaryAudio
  rw [if_pos hgate]
  by_cases he : rmsExceedsThreshold samples 300 = true
  · rw [if_pos ⟨h, he⟩]
    refine ⟨rfl, fun _ => ⟨rfl, rfl⟩, fun hf => ?_⟩
    rw [he] at hf
    exact absurd hf (by simp)
  · rw [if_neg (fun hc => he hc.2)]
    refine ⟨rfl, fun ht => absurd ht he, fun _ => ⟨rfl, rfl, rfl⟩⟩

/-- Witness for `audio_gate_generating_speaking`: a SPEAKING session, a
loud frame (one sample of amplitude 400, RMS 400 > 300) interrupting, and
a quiet frame (amplitude 100) silently dropped. -/
theorem audio_gate_generating_speaking_witness :
    (handleBinaryAudio { state := SessionState.speaking } {} [400] 0 none).msgs
        = (handleInterrupt { state := SessionState.speaking }).2 ∧
    (handleBinaryAudio { state := SessionState.speaking } {} [100] 0 none).msgs = [] := by
  constructor
  · exact ((audio_gate_generating_speaking { state := SessionState.speaking } {} [400] 0 none
      (Or.inr rfl)).2.1 (by decide)).2
  · exact ((audio_gate_generating_speaking { state := SessionState.speaking } {} [100] 0 none
      (Or.inr rfl)).2.2 (by decide)).2.1

/-! ### Action-block filtering and parsing (`pipeline.py` / `actions.py`) -/

/-- Indices at which `pat` occurs in `t` (ascending). -/
def subIndices (pat t : List Char) : List Nat :=
  (List.range (t.length + 1)).filter (fun i => pat.isPrefixOf (t.drop i))

/-- Python `str.find`: index of the first occurrence. -/
def findSub (pat t : List Char) : Option Nat :=
  (subIndices pat t).head?

/-- Python `str.rfind`: index of the last occurrence. -/
def rfindSub (pat t : List Char) : Option Nat :=
  (subIndices pat t).getLast?

/-- Python `pat in t`. -/
def containsSub (pat t : List Char) : Bool :=
  (findSub pat t).isSome

def fenceL : List Char := "```".toList

def markerLower : List Char := "```action".toList

def markerUpper : List Char := "```Action".toList

/-- The state of the `llm_text_generator` closure
(`core/pipeline.py`, lines 381-436): the detection buffer, the
in-action-block flag, and the pieces yielded to TTS so far. -/
structure GenState where
  buffer : List Char := []
  inActionBlock : Bool := false
  out : List (List Char) := []
deriving DecidableEq, Repr

/-- One loop iteration of `llm_text_generator` on an incoming token:
append to the buffer; on seeing the action marker, yield the text before
the first fence and start withholding; inside a block, close it at a
fence, yielding any text after the last fence; otherwise flush buffers
longer than 10 characters that contain no fence. -/
def genStep (st : GenState) (token : List Char) : GenState :=
  let buffer := st.buffer ++ token
  if containsSub markerLower buffer || containsSub markerUpper buffer then
    let a := (findSub fenceL buffer).getD 0
    { buffer := [], inActionBlock := true,
      out := st.out ++ (if 0 < a then [buffer.take a] else []) }
  else if st.inActionBlock then
    if containsSub fenceL buffer then
      let c := (rfindSub fenceL buffer).getD 0
      { buffer := [], inActionBlock := false,
        out := st.out ++ (if c + 3 < buffer.length then [buffer.drop (c + 3)] else []) }
    else { st with buffer := buffer }
  else
    if 10 < buffer.length ∧ containsSub fenceL buffer = false then
      { st with buffer := [], out := st.out ++ [buffer] }
    else { st with buffer := buffer }

/-- The final flush of `llm_text_generator`: yield the remaining buffer
only when outside a block and fence-free. -/
def genFinish (st : GenState) : List (List Char) :=
  if st.buffer ≠ [] ∧ st.inActionBlock = false ∧ containsSub fenceL st.buffer = false then
    st.out ++ [st.buffer]
  else st.out

/-- Runs `llm_text_generator` over a whole token stream: the list of text
pieces forwarded to synthesis. -/
def llmTextGen (tokens : List (List Char)) : List (List Char) :=
  genFinish (tokens.foldl genStep {})

/-- A character-by-character token stream for a given response text. -/
def charTokens (t : List Char) : List (List Char) :=
  t.map (fun c => [c])

/-- Concatenation of the yielded pieces. -/
def joinPieces (l : List (List Char)) : List Char :=
  l.foldr (fun a b => a ++ b) []

def lbrace : Char := Char.ofNat 123

def rbrace : Char := Char.ofNat 125

/-- Index after the whitespace run starting at `i` (the regex fragment
`\s*\n?\s*`, which as a whole matches exactly a run of whitespace). -/
def skipWSIdx (t : List Char) (i : Nat) : Nat :=
  i + ((t.drop i).takeWhile isPyWS).length

/-- Does `pat` occur at index `i` of `t`? -/
def occursAt (pat t : List Char) (i : Nat) : Bool :=
  pat.isPrefixOf (t.drop i)

/-- One attempt of the `parse_action_from_response` regex
(`engines/actions.py`, line 278: three backticks + `action`, whitespace, a
brace group with a nonempty `\x7d`-free interior, whitespace, a closing
fence) anchored at index `i`; on success returns the index after the
match and the captured brace group. -/
def matchActionAt (t : List Char) (i : Nat) : Option (Nat × List Char) :=
  if occursAt markerLower t i then
    let j := skipWSIdx t (i + 9)
    if (t.drop j).head? = some lbrace then
      let afterBrace := t.drop (j + 1)
      let inner := afterBrace.takeWhile (fun c => c != rbrace)
      if inner.length = 0 then none
      else if inner.length < afterBrace.length then
        let k := j + 1 + inner.length
        let m := skipWSIdx t (k + 1)
        if occursAt fenceL t m then some (m + 3, (lbrace :: inner) ++ [rbrace])
        else none
      else none
    else none
  else none

/-- Python `re.search` for the action pattern: leftmost match. -/
def searchActionAux (t : List Char) : Nat → Nat → Option (Nat × Nat × List Char)
  | 0, _ => none
  | fuel + 1, i =>
      match matchActionAt t i with
      | some (e, cap) => some (i, e, cap)
      | none => if i < t.length then searchActionAux t fuel (i + 1) else none

/-- Leftmost action-pattern match in `t`: start, end, capture. -/
def searchAction (t : List Char) : Option (Nat × Nat × List Char) :=
  searchActionAux t (t.length + 1) 0

/-- Python `re.sub(action_pattern, '', t)`: drop every (leftmost, non-overlapping)
match, keeping all other characters. -/
def removeActionsAux (t : List Char) : Nat → Nat → List Char
  | 0, _ => []
  | fuel + 1, i =>
      if h : i < t.length then
        match matchActionAt t i with
        | some (e, _) => removeActionsAux t fuel e
        | none => t.get ⟨i, h⟩ :: removeActionsAux t fuel (i + 1)
      else []

def removeActions (t : List Char) : List Char :=
  removeActionsAux t (t.length + 1) 0

/-- A JSON string literal without escape sequences: `"..."`, returning the
content and the remainder. -/
def parseJsonString (cs : List Char) : Option (String × List Char) :=
  match cs with
  | [] => none
  | c :: rest =>
      if c = '"' then
        let sChars := rest.takeWhile (fun x => x != '"')
        match rest.drop sChars.length with
        | q :: rest3 => if q = '"' then some (String.mk sChars, rest3) else none
        | [] => none
      else none

def skipWSL (cs : List Char) : List Char :=
  cs.dropWhile isPyWS

/-- Key/value pairs of a flat JSON object body, up to and including the
closing brace. -/
def parsePairs : List Char → Nat → Option (List (String × String))
  | _, 0 => none
  | cs, fuel + 1 =>
      match parseJsonString (skipWSL cs) with
      | none => none
      | some (k, r1) =>
          match skipWSL r1 with
          | [] => none
          | c :: r2 =>
              if c = ':' then
                match parseJsonString (skipWSL r2) with
                | none => none
                | some (v, r3) =>
                    match skipWSL r3 with
                    | [] => none
                    | c2 :: r4 =>
                        if c2 = ',' then
                          match parsePairs r4 fuel with
                          | none => none
                          | some ps => some ((k, v) :: ps)
                        else if c2 = rbrace then
                          if skipWSL r4 = [] then some [(k, v)] else none
                        else none
              else none

/-- Python `json.loads` restricted to flat objects with unescaped string keys and
values — the shape of every action block the system prompt defines; any
other input is a parse failure, mirroring the `JSONDecodeError` branch. -/
def parseJsonFlat (cs : List Char) : Option (List (String × String)) :=
  match skipWSL cs with
  | [] => none
  | c :: rest => if c = lbrace then parsePairs rest (cs.length + 1) else none

/-- Embeds `parse_action_from_response` (`engines/actions.py`, lines 268-293):
search for the action pattern; on a match whose capture parses as JSON,
return the text with all matches removed and stripped, plus the action
dict; otherwise return the input unchanged with no action. -/
def parseActionFromResponse (t : List Char) :
    List Char × Option (List (String × String)) :=
  match searchAction t with
  | none => (t, none)
  | some (_, _, cap) =>
      match parseJsonFlat cap with
      | none => (t, none)
      | some d => (pyStrip (removeActions t), some d)

/-- The action block used in the concrete round-trip instances. -/
def actionBlockL : List Char :=
  ("```action\n\x7b\"action\": \"campus_tour\", \"location\": \"library\"\x7d\n```").toList

def preMid : List Char := "Sure! ".toList

def postMid : List Char := " Here you go.".toList

/-- Response with the block in the middle. -/
def midText : List Char := preMid ++ actionBlockL ++ postMid

/-- Response with the block at the start. -/
def startText : List Char := actionBlockL ++ " Take a look!".toList

/-- Response with the block at the end. -/
def endText : List Char := preMid ++ actionBlockL

/-- C4 counterexample: when the whole response arrives as a single token,
the generator enters the action block, discards the rest of the buffer —
including the text after the closing fence — and never leaves the block,
so the text outside the block is NOT all forwarded to synthesis: only
"Sure! " is yielded and " Here you go." is lost. -/
theorem llmTextGen_single_token_loses_tail :
    joinPieces (llmTextGen [midText]) = preMid ∧
    joinPieces (llmTextGen [midText]) ≠ preMid ++ postMid := by
  constructor <;> decide

/-- C4 (amended): for the block delivered in a character-by-character
token stream at the start, middle, or end of the response (placements
where the 10-character flush window does not split the opening fence), the
synthesis stream carries exactly the text outside the block — no part of
the block — and the post-hoc parser recovers the action kind and
parameters and returns the surrounding text with the block removed. -/
theorem action_block_roundtrip_char_stream :
    (joinPieces (llmTextGen (charTokens startText)) = " Take a look!".toList ∧
     joinPieces (llmTextGen (charTokens midText)) = preMid ++ postMid ∧
     joinPieces (llmTextGen (charTokens endText)) = preMid) ∧
    (parseActionFromResponse startText =
       ("Take a look!".toList, some [("action", "campus_tour"), ("location", "library")]) ∧
     parseActionFromResponse midText =
       ("Sure!  Here you go.".toList, some [("action", "campus_tour"), ("location", "library")]) ∧
     parseActionFromResponse endText =
       ("Sure!".toList, some [("action", "campus_tour"), ("location", "library")])) := by
  exact ⟨⟨by decide, by decide, by decide⟩, ⟨by decide, by decide, by decide⟩⟩

/-- Embeds `Session._trim_history` (`core/session.py`, lines 157-162) with
`config.memory.max_turns = 10`: keep the most recent 10 turns. -/
def trimHistory (turns : List Turn) : List Turn :=
  if 10 < turns.length then turns.drop (turns.length - 10) else turns

/-- Embeds `Session.add_user_turn` (`core/session.py`, lines 145-149). -/
def addUserTurn (s : Session) (text : String) : Session :=
  { s with turns := trimHistory (s.turns ++ [{ role := "user", content := text }]) }

/-- Embeds `Session.add_assistant_turn` (`core/session.py`, lines 151-155). -/
def addAssistantTurn (s : Session) (text : String) : Session :=
  { s with turns := trimHistory (s.turns ++ [{ role := "assistant", content := text }]) }

/-- Embeds `StreamingPipeline.run_full_pipeline` (`core/pipeline.py`, lines
339-549).  The LLM token stream and the TTS engine are external services,
passed in as the token list `llmTokens`, the chunk-count oracle
`ttsChunkCount` (how many audio chunks synthesis of the filtered text
yields), and the action executor `execAction` (the client message emitted
for a parsed action dict, if any).  A blank transcript returns before the
`try` block; otherwise: user turn appended, transition to GENERATING, one
token message per LLM token then the completion message and the raw full
text appended as an assistant turn (inside `run_llm_stream`), audio chunks
sent with incrementing sequence numbers after a transition to SPEAKING on
the first chunk, the accumulated text parsed for an action block, the
clean text appended as an assistant turn, and the `finally` reset to IDLE
unless interrupted or CLOSED.  Messages are concatenated in stage order
(the runtime interleaving of token and audio messages is abstracted). -/
def runFullPipeline (s : Session) (transcript : String)
    (llmTokens : List (List Char)) (ttsChunkCount : List (List Char) → Nat)
    (execAction : List (String × String) → Option Msg) : Session × List Msg :=
  if pyStrip transcript.toList = [] then (s, [])
  else
    let s1 := addUserTurn s transcript
    let t2 := transitionState s1 SessionState.generating
    let fullText := joinPieces llmTokens
    let tokenMsgs := (llmTokens.zip (List.range llmTokens.length)).map
      (fun p => Msg.llmToken p.1 (p.2 + 1))
    let s3 := addAssistantTurn t2.1 (String.mk fullText)
    let filtered := llmTextGen llmTokens
    let n := ttsChunkCount filtered
    let t4 := if 0 < n then transitionState s3 SessionState.speaking else (s3, [])
    let audioMsgs := (List.range n).map (fun i => Msg.audioResponse (t4.1.audioSequence + i + 1))
    let s5 := { t4.1 with audioSequence := t4.1.audioSequence + n }
    let parsed := parseActionFromResponse (pyStrip fullText)
    let actMsgs := match parsed.2 with
      | some d => (execAction d).toList
      | none => []
    let s6 := addAssistantTurn s5 (String.mk parsed.1)
    let t7 := pipelineFinalReset s6
    (t7.1, t2.2 ++ tokenMsgs ++ [Msg.llmComplete fullText] ++ t4.2 ++ audioMsgs
      ++ actMsgs ++ t7.2)

/-- C10: on an empty or whitespace-only transcript the full pipeline is a
no-op at every observable interface: the session (state, history, sequence
counters) is returned unchanged and no message is sent, for every LLM/TTS
oracle. -/
theorem runFullPipeline_blank_noop (s : Session) (transcript : String)
    (llmTokens : List (List Char)) (ttsChunkCount : List (List Char) → Nat)
    (execAction : List (String × String) → Option Msg)
    (h : pyStrip transcript.toList = []) :
    runFullPipeline s transcript llmTokens ttsChunkCount execAction = (s, []) := by
  unfold runFullPipeline
  rw [if_pos h]

/-- Witness for `runFullPipeline_blank_noop` at the whitespace transcript
`"  "` and arbitrary concrete oracles. -/
theorem runFullPipeline_blank_noop_witness :
    runFullPipeline {} "  " [] (fun _ => 0) (fun _ => none) = ({}, []) :=
  runFullPipeline_blank_noop {} "  " [] (fun _ => 0) (fun _ => none) (by decide)

end Zeni
